import Mathlib

/-!
Verification development for the worldwind-timeseries repository.

The repository renders a temporal sequence of full-globe raster images.
Its core logic lives in:
  * `src/src/layer/WeatherLayer.js` — slot generation (`prePopulate`),
    nearest-slot lookup (`nearestLayerName`), rendering (`doRender`),
    `isPrePopulated`;
  * `src/unnamed/part_000` (`TimeSeriesLayer`) — a sibling variant of the
    same layer with `layerNames` kept as a time-keyed map;
  * `src/src/layer/BMNGOneImageLayer.js` — the asynchronous image
    fetch/cache/dedup subsystem (`retrieveImage`, the `image.onload` and
    `image.onerror` handlers, `prePopulate`, `isImageLayerInMemory`).

Timestamps are epoch milliseconds, embedded as `Int`.  JavaScript values
that may be `undefined` are embedded as `Option`.  Helper classes of the
WorldWind library that are not part of this repository's sources
(`PeriodicTimeSequence`, `AbsentResourceList`, the gpu resource cache and
`removeFromCurrentRetrievals`) are modelled from the spec, as marked on
each definition.
-/

namespace WorldwindTimeseries

/-- Association-list lookup, the embedding of JavaScript property access
`obj[key]` on the object literals the source uses as maps (`this.layers`,
`this.layerNames` of `TimeSeriesLayer`, the gpu resource cache entries).
Returns `none` for a missing property (JavaScript `undefined`). -/
def alistLookup {α β : Type} [DecidableEq α] (k : α) : List (α × β) → Option β
  | [] => none
  | (a, b) :: rest => if a = k then some b else alistLookup k rest

/-! ## PeriodicTimeSequence and slot generation -/

/-- Modelled from the spec: `PeriodicTimeSequence`
(`../util/PeriodicTimeSequence`, required by `WeatherLayer.js` and
`part_000` but not under `src/`).  Per spec section 4.1 it is constructed
from a start timestamp, an end timestamp and an interval duration;
`currentTime` is initialized to `start`. `period` is the interval in
milliseconds (the value `prePopulate` computes as
`incrementTime(currentTime, period) - currentTime`), and
`intervalMilliseconds` is the length `end - start` of the whole range. -/
structure PeriodicTimeSequence where
  startTime : Int
  endTime : Int
  period : Int
  currentTime : Int
deriving Repr, DecidableEq

/-- Modelled from the spec: `PeriodicTimeSequence.next` advances
`currentTime` by one interval, wrapping to `start` when the result would
exceed `end` (spec section 4.1: "if result exceeds `end`, wraps to
`start` (periodic)"). -/
def PeriodicTimeSequence.next (s : PeriodicTimeSequence) : PeriodicTimeSequence :=
  let t := s.currentTime + s.period
  { s with currentTime := if s.endTime < t then s.startTime else t }

/-- Modelled from the spec: `intervalMilliseconds` is the millisecond
length of the sequence's whole range. -/
def PeriodicTimeSequence.intervalMilliseconds (s : PeriodicTimeSequence) : Int :=
  s.endTime - s.startTime

/-- Ordinal key assignment from `TimeSeriesLayer.prototype.prePopulate`
(`part_000` lines 89-95) and identically `WeatherLayer.prototype.prePopulate`
(`WeatherLayer.js` lines 94-100): `i < 10` yields `"0" + i.toString()`,
otherwise `i.toString()`. -/
def ordinalName (i : Nat) : String :=
  if i < 10 then "0" ++ Nat.repr i else Nat.repr i

/-- The slot-generation loop of `TimeSeriesLayer.prototype.prePopulate`
(`part_000` lines 87-99): starting at loop index `i` with `n` iterations
remaining, record `(timeSequence.currentTime, name)` where `name` is the
ordinal key of `i`, then advance the sequence.  (`WeatherLayer.js` runs the
same loop, recording the key in a field named `month`; see `wGenEntries`.) -/
def genSlots : PeriodicTimeSequence → Nat → Nat → List (Int × String)
  | _, _, 0 => []
  | s, i, n + 1 => (s.currentTime, ordinalName i) :: genSlots s.next (i + 1) n

/-- Slot count computed by `prePopulate` (`part_000` line 84,
`WeatherLayer.js` line 89): `this.timeSequence.intervalMilliseconds/period + 1`. -/
def slotCount (s : PeriodicTimeSequence) : Int :=
  s.intervalMilliseconds / s.period + 1

/-- The list of `(timestamp, key)` slots produced by the first (index
building) run of `prePopulate` on a freshly constructed sequence:
`length` slots generated from `currentTime = start`. -/
def prePopulateSlots (s : PeriodicTimeSequence) : List (Int × String) :=
  genSlots s 0 (slotCount s).toNat

/-! ## Nearest-slot lookup (`WeatherLayer.prototype.nearestLayerName`) -/

/-- One element of `WeatherLayer`'s `layerNames` array.  Its
`prePopulate` (`WeatherLayer.js` line 102) stores object literals
`{month: month, time: ...}`; the fields `name` and `month` are both
embedded as `Option String` because JavaScript property reads of a field
that was never assigned yield `undefined` — in the source, `month` is the
field `prePopulate` assigns and `name` is the field `nearestLayerName`
and the `prePopulate` sub-layer loop read. -/
structure NameEntry where
  time : Int
  name : Option String
  month : Option String
deriving Repr, DecidableEq

/-- The bracketing scan of `WeatherLayer.prototype.nearestLayerName`
(`WeatherLayer.js` lines 183-193): walk adjacent pairs; on the first pair
with `leftTime <= ms <= rightTime` return
`dLeft < dRight ? left.name : right.name`; falling off the end of the
loop returns JavaScript `undefined`, which is the same value as an
undefined `name` field, so both are embedded as `none`. -/
def scanBracket : List NameEntry → Int → Option String
  | a :: b :: rest, ms =>
    if a.time ≤ ms ∧ ms ≤ b.time then
      if ms - a.time < b.time - ms then a.name else b.name
    else scanBracket (b :: rest) ms
  | _, _ => none

/-- `WeatherLayer.prototype.nearestLayerName` (`WeatherLayer.js` lines
172-194).  The outer `Option` distinguishes the crash on an empty
`layerNames` (line 175 reads `this.layerNames[0].time`, a `TypeError` on
`undefined`) from a normal return; the inner `Option String` is the
returned JavaScript value, `none` being `undefined`. -/
def nearestLayerName : List NameEntry → Int → Option (Option String)
  | [], _ => none
  | first :: rest, ms =>
    some
      (if ms ≤ first.time then first.name
       else if ((first :: rest).getLast (List.cons_ne_nil first rest)).time ≤ ms then
         ((first :: rest).getLast (List.cons_ne_nil first rest)).name
       else scanBracket (first :: rest) ms)

/-- Timestamp-ascending ordering on a `layerNames` array. -/
def TimeAsc (l : List NameEntry) : Prop :=
  l.Pairwise fun a b => a.time < b.time

instance (l : List NameEntry) : Decidable (TimeAsc l) := by
  unfold TimeAsc; infer_instance

/-! ## WeatherLayer / TimeSeriesLayer orchestration -/

/-- The slot-generation loop of `WeatherLayer.prototype.prePopulate`
(`WeatherLayer.js` lines 91-107): same loop as `genSlots`, but each
entry is the object literal `{month: month, time: currentTime}` — the
`name` field is never assigned (it stays `undefined`). -/
def wGenEntries : PeriodicTimeSequence → Nat → Nat → List NameEntry
  | _, _, 0 => []
  | s, i, n + 1 =>
    { time := s.currentTime, name := none, month := some (ordinalName i) }
      :: wGenEntries s.next (i + 1) n

/-- The time sequence both layers construct:
`new PeriodicTimeSequence("2016-07-12/2016-07-18/PT3H")` — start
2016-07-12T00:00Z, end 2016-07-18T00:00Z, period 3 hours, in epoch
milliseconds. -/
def canonicalSequence : PeriodicTimeSequence :=
  { startTime := 1468281600000
    endTime := 1468800000000
    period := 10800000
    currentTime := 1468281600000 }

/-- State of a `TimeSeriesLayer` (`part_000`): `layerNames` is the
object used as a map from time to ordinal name (line 97
`this.layerNames[this.timeSequence.currentTime] = name`), `layers` maps
an ordinal name to the sub-layer's data path (line 116-117
`this.layers[layerName] = new ObjectWindow.OneImageLayer(pathToData + layerName + '.png')`). -/
structure TSLState where
  layerNames : List (Int × String)
  layers : List (String × String)
deriving Repr, DecidableEq

/-- Data path construction of `createSubLayer` (`part_000` line 116):
`this.pathToData + layerName + '.png'` with
`pathToData = "standalonedata/WORLD-CED/test/"`. -/
def dataPathFor (layerName : String) : String :=
  "standalonedata/WORLD-CED/test/" ++ layerName ++ ".png"

/-- The `TimeSeriesLayer` state right after its `prePopulate`
(`part_000` lines 76-113) has built the slot index and created every
sub-layer. -/
def tslPrePopulated : TSLState :=
  let slots := prePopulateSlots canonicalSequence
  { layerNames := slots
    layers := slots.map fun p => (p.2, dataPathFor p.2) }

/-- `TimeSeriesLayer.prototype.doRender` (`part_000` lines 140-150):
`var layer = this.layers[this.layerNames[this.time]]; layer.opacity = ...; layer.doRender(dc);`.
There is no nearest-slot resolution: `layerNames` is indexed directly by
the exact query time.  When either lookup yields `undefined`, the
subsequent `layer.opacity = this.opacity` write throws a `TypeError`;
that crash is embedded as `none`.  On success the sub-layer identified
by its data path is handed to the external renderer (with the layer's
opacity and detail control copied onto it, which we need not track). -/
def TSLState.doRender (st : TSLState) (time : Int) : Option String :=
  match alistLookup time st.layerNames with
  | none => none
  | some name =>
    match alistLookup name st.layers with
    | none => none
    | some dataPath => some dataPath

/-- `WeatherLayer.prototype.isPrePopulated` (`WeatherLayer.js` lines
130-139): the per-sub-layer readiness loop is commented out in the
source and the body is just `return true;`, for every slot list and
every cache state. -/
def weatherIsPrePopulated (_entries : List NameEntry)
    (_cache : List (String × Nat)) : Bool :=
  true

/-- Readiness of one slot's image, as the sub-layers report it:
`BMNGOneImageLayer.prototype.isPrePopulated` delegates to
`isImageLayerInMemory`, i.e. `dc.gpuResourceCache.containsResource(imagePath)`
(`BMNGOneImageLayer.js` lines 51-63 and 80-82). -/
def slotReady (cache : List (String × Nat)) (slot : Int × String) : Bool :=
  (alistLookup (dataPathFor slot.2) cache).isSome

/-! ## BMNGOneImageLayer fetch/cache/dedup subsystem -/

/-- Modelled from the spec: `AbsentResourceList.markResourceAbsent`
(`../util/AbsentResourceList`, not under `src/`) records the identifier
with the current time (spec section 3, `AbsentEntry = (identifier, markedAt)`).
The newest mark is the one `alistLookup` finds. -/
def markResourceAbsent (l : List (String × Int)) (id : String) (now : Int) :
    List (String × Int) :=
  (id, now) :: l

/-- Modelled from the spec: `AbsentResourceList.unmarkResourceAbsent`
clears any prior absent-mark for the identifier. -/
def unmarkResourceAbsent (l : List (String × Int)) (id : String) :
    List (String × Int) :=
  l.filter fun p => p.1 ≠ id

/-- Modelled from the spec: `AbsentResourceList.isResourceAbsent` is true
iff the identifier carries an absent-mark whose cool-down window has not
yet expired (spec sections 3 and 8: within the cool-down window no new
fetch is issued; after expiry one is). -/
def isResourceAbsent (l : List (String × Int)) (id : String)
    (now coolDown : Int) : Bool :=
  match alistLookup id l with
  | some markedAt => now < markedAt + coolDown
  | none => false

/-- State of the fetch/cache/dedup subsystem of
`BMNGOneImageLayer.prototype.retrieveImage` and its handlers
(`BMNGOneImageLayer.js` lines 84-132).
`currentRetrievals` is the in-flight array the code scans with `indexOf`;
`absent` is the `absentResourceList`; `cache` is `dc.gpuResourceCache`
(identifier to stored texture size); `openFetches` records the issued,
not-yet-resolved `Image` requests together with the `suppressRedraw`
flag their handler closures captured; `issued` is the log of every fetch
ever issued (each `image.src = url` assignment); `notifications` counts
dispatched redraw events. -/
structure FetchState where
  currentRetrievals : List String
  absent : List (String × Int)
  cache : List (String × Nat)
  openFetches : List (String × Bool)
  issued : List String
  notifications : Nat
  currentTilesInvalid : Bool
deriving Repr, DecidableEq

/-- The empty initial state: nothing retrieved, nothing in flight. -/
def initFetchState : FetchState :=
  { currentRetrievals := []
    absent := []
    cache := []
    openFetches := []
    issued := []
    notifications := 0
    currentTilesInvalid := false }

/-- `BMNGOneImageLayer.prototype.retrieveImage` (`BMNGOneImageLayer.js`
lines 84-132).  The body runs only when
`currentRetrievals.indexOf(imagePath) < 0`; it then returns early when
`absentResourceList.isResourceAbsent(imagePath)`; a null `url` from
`resourceUrlForTile` sets `currentTilesInvalid` and returns; otherwise
the identifier is pushed onto `currentRetrievals` and exactly one fetch
is issued (`image.src = url`), its handlers capturing `suppressRedraw`. -/
def retrieveImage (s : FetchState) (id : String) (url : Option String)
    (now coolDown : Int) (suppressRedraw : Bool) : FetchState :=
  if id ∈ s.currentRetrievals then s
  else if isResourceAbsent s.absent id now coolDown then s
  else
    match url with
    | none => { s with currentTilesInvalid := true }
    | some _ =>
      { s with
        currentRetrievals := s.currentRetrievals ++ [id]
        openFetches := s.openFetches ++ [(id, suppressRedraw)]
        issued := s.issued ++ [id] }

/-- The `image.onload` handler (`BMNGOneImageLayer.js` lines 102-120)
for an open fetch of `id` whose closure captured `suppress`:
`createTexture` decodes the payload (`texture` is `some size` on decode
success, `none` when no texture results); `removeFromCurrentRetrievals`
— modelled from the spec: "remove `identifier` from the in-flight set",
the method lives on the `TiledImageLayer` prototype outside `src/` —
always runs; only when a texture exists are
`cache.putResource(imagePath, texture, texture.size)`,
`unmarkResourceAbsent` and (unless `suppressRedraw`) the single redraw
event dispatch executed. -/
def onload (s : FetchState) (id : String) (suppress : Bool)
    (texture : Option Nat) : FetchState :=
  let s1 := { s with
    openFetches := s.openFetches.erase (id, suppress)
    currentRetrievals := s.currentRetrievals.erase id }
  match texture with
  | some size =>
    { s1 with
      cache := (id, size) :: s1.cache
      currentTilesInvalid := true
      absent := unmarkResourceAbsent s1.absent id
      notifications := if suppress then s1.notifications else s1.notifications + 1 }
  | none => s1

/-- The `image.onerror` handler (`BMNGOneImageLayer.js` lines 122-126)
for an open fetch of `id`: `removeFromCurrentRetrievals(imagePath)` then
`absentResourceList.markResourceAbsent(imagePath)` at the current time;
nothing else — no cache mutation, no redraw event. -/
def onerror (s : FetchState) (id : String) (suppress : Bool) (now : Int) :
    FetchState :=
  { s with
    openFetches := s.openFetches.erase (id, suppress)
    currentRetrievals := s.currentRetrievals.erase id
    absent := markResourceAbsent s.absent id now }

/-- `BMNGOneImageLayer.prototype.prePopulate` (`BMNGOneImageLayer.js`
lines 65-77): when the image is not already in the gpu resource cache,
call `retrieveImage(dc, tile, true)` — suppress-redraw mode. -/
def bmngPrePopulate (s : FetchState) (id : String) (url : Option String)
    (now coolDown : Int) : FetchState :=
  if (alistLookup id s.cache).isSome then s
  else retrieveImage s id url now coolDown true

/-- Events of the cooperative event loop driving the fetch subsystem
(spec section 5): a `retrieveImage` call, a load callback (with the
decode outcome), or an error callback.  Callbacks only fire for a fetch
that is actually open; an event for a fetch that is not open is a no-op
(it cannot occur). -/
inductive FetchEvent where
  | call (id : String) (url : Option String) (suppress : Bool) (now : Int)
  | load (id : String) (suppress : Bool) (texture : Option Nat)
  | fail (id : String) (suppress : Bool) (now : Int)
deriving Repr, DecidableEq

/-- One step of the event loop. -/
def fetchStep (coolDown : Int) (s : FetchState) : FetchEvent → FetchState
  | .call id url suppress now => retrieveImage s id url now coolDown suppress
  | .load id suppress texture =>
    if (id, suppress) ∈ s.openFetches then onload s id suppress texture else s
  | .fail id suppress now =>
    if (id, suppress) ∈ s.openFetches then onerror s id suppress now else s

/-- Run a sequence of events from a state. -/
def runEvents (coolDown : Int) : List FetchEvent → FetchState → FetchState
  | [], s => s
  | e :: es, s => runEvents coolDown es (fetchStep coolDown s e)

/-! ## Lemmas on the nearest-slot lookup -/

/-- In a timestamp-ascending `layerNames` array, times are monotone in
the index. -/
lemma TimeAsc.time_le {l : List NameEntry} (h : TimeAsc l) {i j : Nat}
    (hij : i ≤ j) (hj : j < l.length) :
    (l.get ⟨i, Nat.lt_of_le_of_lt hij hj⟩).time ≤ (l.get ⟨j, hj⟩).time := by
  rcases Nat.eq_or_lt_of_le hij with rfl | hlt
  · exact le_refl _
  · exact le_of_lt (List.pairwise_iff_get.mp h ⟨i, Nat.lt_of_le_of_lt hij hj⟩ ⟨j, hj⟩ hlt)

/-- Every entry's time is bounded by the last entry's time. -/
lemma TimeAsc.get_le_getLast {l : List NameEntry} (h : TimeAsc l) {j : Nat}
    (hj : j < l.length) (hne : l ≠ []) :
    (l.get ⟨j, hj⟩).time ≤ (l.getLast hne).time := by
  have hpos : 0 < l.length := List.length_pos.mpr hne
  rw [List.getLast_eq_get]
  exact h.time_le (by omega) (by omega)

/-- The head's time is bounded by every entry's time. -/
lemma TimeAsc.head_le_get {l : List NameEntry} (h : TimeAsc l) {j : Nat}
    (hj : j < l.length) (hne : l ≠ []) :
    (l.head hne).time ≤ (l.get ⟨j, hj⟩).time := by
  match l, hne with
  | first :: rest, _ => exact h.time_le (Nat.zero_le j) hj

/-- The bracketing scan stops at the unique strictly-bracketing adjacent
pair and returns the closer endpoint's `name`, the left one only on a
strictly smaller delta. -/
lemma scanBracket_finds (ms : Int) :
    ∀ (l : List NameEntry) (i : Nat) (hi : i + 1 < l.length),
      TimeAsc l →
      (l.get ⟨i, Nat.lt_of_succ_lt hi⟩).time < ms →
      ms < (l.get ⟨i + 1, hi⟩).time →
      scanBracket l ms =
        if ms - (l.get ⟨i, Nat.lt_of_succ_lt hi⟩).time <
            (l.get ⟨i + 1, hi⟩).time - ms
        then (l.get ⟨i, Nat.lt_of_succ_lt hi⟩).name
        else (l.get ⟨i + 1, hi⟩).name
  | a :: b :: rest, 0, _, _, h1, h2 => by
    show scanBracket (a :: b :: rest) ms = _
    rw [scanBracket, if_pos ⟨le_of_lt h1, le_of_lt h2⟩]
    rfl
  | a :: b :: rest, i + 1, hi, hasc, h1, h2 => by
    have hlen : i + 1 < (b :: rest).length := Nat.lt_of_succ_lt_succ hi
    have hble : b.time ≤ ((a :: b :: rest).get ⟨i + 1, Nat.lt_of_succ_lt hi⟩).time := by
      have := hasc.time_le (i := 1) (j := i + 1) (Nat.succ_le_succ (Nat.zero_le i))
        (Nat.lt_of_succ_lt hi)
      exact this
    have hnb : ¬(a.time ≤ ms ∧ ms ≤ b.time) := by
      rintro ⟨-, hle⟩
      exact absurd (lt_of_le_of_lt hble h1) (not_lt.mpr hle)
    rw [scanBracket, if_neg hnb]
    have htail : TimeAsc (b :: rest) := hasc.of_cons
    exact scanBracket_finds ms (b :: rest) i hlen htail h1 h2

/-- Whenever the query lies between the head's and the last entry's
timestamps, the bracketing scan returns the `name` of some entry of the
list (no ordering hypothesis needed). -/
lemma scanBracket_mem :
    ∀ (a b : NameEntry) (rest : List NameEntry) (ms : Int),
      a.time ≤ ms →
      ms ≤ ((a :: b :: rest).getLast (List.cons_ne_nil _ _)).time →
      ∃ e ∈ a :: b :: rest, scanBracket (a :: b :: rest) ms = e.name
  | a, b, rest, ms, h1, h2 => by
    by_cases hbr : a.time ≤ ms ∧ ms ≤ b.time
    · rw [scanBracket, if_pos hbr]
      by_cases hd : ms - a.time < b.time - ms
      · exact ⟨a, List.mem_cons_self _ _, by rw [if_pos hd]⟩
      · exact ⟨b, List.mem_cons_of_mem _ (List.mem_cons_self _ _), by rw [if_neg hd]⟩
    · have hb : b.time < ms := by
        rcases not_and_or.mp hbr with h | h
        · exact absurd h1 h
        · exact lt_of_not_le h
      match rest with
      | [] =>
        exact absurd h2 (not_le.mpr (by simpa [List.getLast] using hb))
      | c :: rest' =>
        have h2' : ms ≤ ((b :: c :: rest').getLast (List.cons_ne_nil _ _)).time := by
          rwa [List.getLast_cons (List.cons_ne_nil _ _)] at h2
        obtain ⟨e, he, hs⟩ := scanBracket_mem b c rest' ms (le_of_lt hb) h2'
        exact ⟨e, List.mem_cons_of_mem _ he, by rw [scanBracket, if_neg hbr]; exact hs⟩

/-- C2 counterexample: slots at times 0 and 200 with keys `"00"` and
`"01"`; the query 100 is exactly equidistant, yet `nearestLayerName`
returns the later slot's key, not the earlier one the claim requires. -/
theorem nearest_tie_goes_right :
    nearestLayerName
        [⟨0, some "00", none⟩, ⟨200, some "01", none⟩] 100 = some (some "01")
      ∧ some (some "01") ≠ some (some "00") := by
  constructor
  · decide
  · decide

/-- C2 (amended): for every timestamp-ascending slot list and every
query strictly between two adjacent slots and exactly equidistant from
them, `nearestLayerName` returns the **later** (right) slot — the source
ternary `dLeft < dRight ? left : right` sends ties right. -/
theorem nearest_tie_amended (l : List NameEntry) (ms : Int) (i : Nat)
    (hi : i + 1 < l.length) (hasc : TimeAsc l)
    (h1 : (l.get ⟨i, Nat.lt_of_succ_lt hi⟩).time < ms)
    (h2 : ms < (l.get ⟨i + 1, hi⟩).time)
    (htie : ms - (l.get ⟨i, Nat.lt_of_succ_lt hi⟩).time
          = (l.get ⟨i + 1, hi⟩).time - ms) :
    nearestLayerName l ms = some (l.get ⟨i + 1, hi⟩).name := by
  match l, hi with
  | first :: rest, hi =>
    have hfirst_le : first.time ≤ ((first :: rest).get ⟨i, Nat.lt_of_succ_lt hi⟩).time :=
      hasc.time_le (i := 0) (j := i) (Nat.zero_le i) (Nat.lt_of_succ_lt hi)
    have hnf : ¬ ms ≤ first.time :=
      not_le.mpr (lt_of_le_of_lt hfirst_le h1)
    have hlast_ge :
        ((first :: rest).get ⟨i + 1, hi⟩).time ≤
          ((first :: rest).getLast (List.cons_ne_nil first rest)).time :=
      hasc.get_le_getLast hi (List.cons_ne_nil first rest)
    have hnl : ¬ ((first :: rest).getLast (List.cons_ne_nil first rest)).time ≤ ms :=
      not_le.mpr (lt_of_lt_of_le h2 hlast_ge)
    show some _ = some _
    rw [if_neg hnf, if_neg hnl,
      scanBracket_finds ms (first :: rest) i hi hasc h1 h2,
      if_neg (by omega)]

/-- C2 amended-claim witness: two slots at times 0 and 200, query 100. -/
theorem nearest_tie_amended_witness :
    nearestLayerName
        [⟨0, some "00", none⟩, ⟨200, some "01", none⟩] 100 = some (some "01") :=
  nearest_tie_amended [⟨0, some "00", none⟩, ⟨200, some "01", none⟩] 100 0
    (by decide) (by decide) (by decide) (by decide) (by decide)

/-- C5: on every non-empty timestamp-ascending slot list,
`nearestLayerName` is total (it returns the `name` of some entry of the
list for every query), every query at or before the first timestamp
returns the first slot, and every query at or after the last timestamp
returns the last slot. -/
theorem nearest_total_clamps (l : List NameEntry) (ms : Int) (hne : l ≠ [])
    (hasc : TimeAsc l) :
    (∃ e ∈ l, nearestLayerName l ms = some e.name)
    ∧ (ms ≤ (l.head hne).time → nearestLayerName l ms = some (l.head hne).name)
    ∧ ((l.getLast hne).time ≤ ms → nearestLayerName l ms = some (l.getLast hne).name) := by
  match l, hne with
  | first :: rest, hne =>
    refine ⟨?_, ?_, ?_⟩
    · by_cases hf : ms ≤ first.time
      · exact ⟨first, List.mem_cons_self _ _, by show some _ = some _; rw [if_pos hf]⟩
      · by_cases hl : ((first :: rest).getLast (List.cons_ne_nil first rest)).time ≤ ms
        · exact ⟨(first :: rest).getLast (List.cons_ne_nil first rest),
            List.getLast_mem _, by show some _ = some _; rw [if_neg hf, if_pos hl]⟩
        · match rest with
          | [] =>
            exact absurd hl (by simp only [List.getLast_singleton]; omega)
          | b :: rest' =>
            obtain ⟨e, he, hs⟩ := scanBracket_mem first b rest' ms
              (le_of_lt (not_le.mp hf)) (le_of_lt (not_le.mp hl))
            exact ⟨e, he, by show some _ = some _; rw [if_neg hf, if_neg hl, hs]⟩
    · intro hf
      have hf' : ms ≤ first.time := hf
      show some _ = some _
      rw [if_pos hf']
      rfl
    · intro hl
      have hl' : ((first :: rest).getLast (List.cons_ne_nil first rest)).time ≤ ms := hl
      by_cases hf : ms ≤ first.time
      · have h2 : (first :: rest).getLast (List.cons_ne_nil first rest) = first := by
          match rest with
          | [] => rfl
          | b :: rest' =>
            exfalso
            have hfb : first.time < b.time :=
              (List.pairwise_cons.mp hasc).1 b (List.mem_cons_self _ _)
            have htail : TimeAsc (b :: rest') := hasc.of_cons
            have hbl : b.time ≤ ((b :: rest').getLast (List.cons_ne_nil b rest')).time :=
              htail.get_le_getLast (j := 0) (Nat.succ_pos _) (List.cons_ne_nil b rest')
            have hl2 : ((b :: rest').getLast (List.cons_ne_nil b rest')).time ≤ ms := by
              rw [← List.getLast_cons (List.cons_ne_nil b rest')]
              exact hl'
            omega
        show some _ = some _
        rw [if_pos hf, h2]
      · show some _ = some _
        rw [if_neg hf, if_pos hl']

/-- C5 witness: slots at times 0 and 200; the query at the first slot's
exact time returns the first slot, and a query far past the end returns
the last slot. -/
theorem nearest_total_clamps_witness :
    nearestLayerName
        [⟨0, some "00", none⟩, ⟨200, some "01", none⟩] 0 = some (some "00")
    ∧ nearestLayerName
        [⟨0, some "00", none⟩, ⟨200, some "01", none⟩] 999 = some (some "01") := by
  have h0 := nearest_total_clamps
    [⟨0, some "00", none⟩, ⟨200, some "01", none⟩] 0 (by decide) (by decide)
  have h9 := nearest_total_clamps
    [⟨0, some "00", none⟩, ⟨200, some "01", none⟩] 999 (by decide) (by decide)
  exact ⟨h0.2.1 (by decide), h9.2.2 (by decide)⟩

/-! ## Lemmas on slot generation -/

/-- Characterization of the slot-generation loop: as long as every
generated timestamp stays at or below the sequence end, the loop
produces `start + (i+j)*interval` with ordinal key `i+j`, never
wrapping. -/
lemma genSlots_eq (startT endT interval : Int) (hpos : 0 < interval) :
    ∀ (n i : Nat),
      startT + ((i : Int) + (n : Int)) * interval ≤ endT + interval →
      genSlots ⟨startT, endT, interval, startT + (i : Int) * interval⟩ i n
        = (List.range n).map
            (fun (j : Nat) =>
              (startT + ((i : Int) + (j : Int)) * interval, ordinalName (i + j))) := by
  intro n
  induction n with
  | zero => intro i _; simp [genSlots]
  | succ m ih =>
    intro i hle
    rw [genSlots, List.range_succ_eq_map, List.map_cons, List.map_map]
    refine List.cons_eq_cons.mpr ⟨by simp, ?_⟩
    match m with
    | 0 => simp [genSlots]
    | k + 1 =>
      have hmle : (1 : Int) ≤ (k : Int) + 1 := by omega
      have h1 : ((i : Int) + 1) * interval ≤ ((i : Int) + ((k : Int) + 1)) * interval := by
        apply mul_le_mul_of_nonneg_right _ (le_of_lt hpos)
        omega
      have h2 : startT + ((i : Int) + ((k : Int) + 1) + 1) * interval ≤ endT + interval := by
        have : ((i : Int) + ((k + 1 : Nat) + 1 : Nat)) = ((i : Int) + ((k : Int) + 1) + 1) := by
          push_cast; ring
        calc startT + ((i : Int) + ((k : Int) + 1) + 1) * interval
            = startT + ((i : Int) + ((k + 1 + 1 : Nat) : Int)) * interval := by push_cast; ring_nf
          _ ≤ endT + interval := hle
      have h3 : ((i : Int) + ((k : Int) + 1) + 1) * interval
          = ((i : Int) + ((k : Int) + 1)) * interval + interval := by ring
      have hnowrap : ¬ endT < startT + (i : Int) * interval + interval := by
        push_neg
        have h4 : startT + ((i : Int) + ((k : Int) + 1)) * interval ≤ endT := by omega
        have h5 : ((i : Int) + 1) * interval = (i : Int) * interval + interval := by ring
        omega
      have hnext :
          (PeriodicTimeSequence.next ⟨startT, endT, interval, startT + (i : Int) * interval⟩)
            = ⟨startT, endT, interval, startT + ((i : Int) + 1) * interval⟩ := by
        simp only [PeriodicTimeSequence.next]
        rw [if_neg hnowrap]
        have : startT + (i : Int) * interval + interval = startT + ((i : Int) + 1) * interval := by
          ring
        rw [this]
      have hih : genSlots ⟨startT, endT, interval, startT + ((i + 1 : Nat) : Int) * interval⟩
            (i + 1) (k + 1)
          = (List.range (k + 1)).map
              (fun (j : Nat) => (startT + (((i + 1 : Nat) : Int) + (j : Int)) * interval,
                ordinalName ((i + 1) + j))) := by
        apply ih
        push_cast
        push_cast at h2
        linarith
      have hcast : ((i + 1 : Nat) : Int) = (i : Int) + 1 := by push_cast; ring
      rw [hnext, ← hcast, hih]
      apply List.map_congr_left
      intro a _
      simp only [Function.comp, Prod.mk.injEq]
      refine ⟨by push_cast; ring, ?_⟩
      congr 1
      omega

/-- C4: for every valid `(start, end, interval)` with positive interval
evenly dividing the range, the slot-index build of `prePopulate`
produces exactly `(end-start)/interval + 1` slots whose timestamps are
`start, start+interval, ...` in strictly ascending order and whose keys
are, in generation order, the ordinal keys `"00"`, `"01"`, ..., i.e.
`"0"` prepended to the decimal digit for ordinals below 10 (two-digit
zero-padded) and the plain decimal string from ordinal 10 on. -/
theorem prePopulate_builds_slots (startT endT interval : Int)
    (hpos : 0 < interval) (hse : startT ≤ endT)
    (hdvd : interval ∣ endT - startT) :
    (prePopulateSlots ⟨startT, endT, interval, startT⟩).length
        = ((endT - startT) / interval + 1).toNat
    ∧ (prePopulateSlots ⟨startT, endT, interval, startT⟩).map Prod.fst
        = (List.range ((endT - startT) / interval + 1).toNat).map
            (fun (j : Nat) => startT + (j : Int) * interval)
    ∧ (prePopulateSlots ⟨startT, endT, interval, startT⟩).Pairwise
        (fun a b => a.1 < b.1)
    ∧ (prePopulateSlots ⟨startT, endT, interval, startT⟩).map Prod.snd
        = (List.range ((endT - startT) / interval + 1).toNat).map ordinalName
    ∧ (∀ i < 10, ordinalName i = "0" ++ Nat.repr i ∧ (ordinalName i).length = 2)
    ∧ (∀ i, 10 ≤ i → ordinalName i = Nat.repr i) := by
  have hq : 0 ≤ (endT - startT) / interval :=
    Int.ediv_nonneg (by omega) (le_of_lt hpos)
  have hcast : (((((endT - startT) / interval + 1).toNat : Nat)) : Int)
      = (endT - startT) / interval + 1 :=
    Int.toNat_of_nonneg (by omega)
  have hmul : (endT - startT) / interval * interval = endT - startT :=
    Int.ediv_mul_cancel hdvd
  have hcount : (slotCount ⟨startT, endT, interval, startT⟩).toNat
      = ((endT - startT) / interval + 1).toNat := by
    simp [slotCount, PeriodicTimeSequence.intervalMilliseconds]
  have hstart : (⟨startT, endT, interval, startT⟩ : PeriodicTimeSequence)
      = ⟨startT, endT, interval, startT + ((0 : Nat) : Int) * interval⟩ := by
    simp
  have hmain : prePopulateSlots ⟨startT, endT, interval, startT⟩
      = (List.range ((endT - startT) / interval + 1).toNat).map
          (fun (j : Nat) =>
            (startT + ((0 : Int) + (j : Int)) * interval, ordinalName (0 + j))) := by
    rw [prePopulateSlots, hcount, hstart]
    apply genSlots_eq startT endT interval hpos
    rw [hcast]
    apply le_of_eq
    have h5 : (((0 : Nat) : Int) + ((endT - startT) / interval + 1)) * interval
        = (endT - startT) / interval * interval + interval := by push_cast; ring
    rw [h5, hmul]
    ring
  have hsimp : prePopulateSlots ⟨startT, endT, interval, startT⟩
      = (List.range ((endT - startT) / interval + 1).toNat).map
          (fun (j : Nat) => (startT + (j : Int) * interval, ordinalName j)) := by
    rw [hmain]
    apply List.map_congr_left
    intro a _
    simp only [Prod.mk.injEq]
    refine ⟨by ring, by simp⟩
  refine ⟨?_, ?_, ?_, ?_, by decide, ?_⟩
  · rw [hsimp]; simp
  · rw [hsimp, List.map_map]
    apply List.map_congr_left
    intro a _
    rfl
  · rw [hsimp]
    rw [List.pairwise_map]
    apply (List.pairwise_lt_range _).imp
    intro a b hab
    have : (a : Int) < (b : Int) := by exact_mod_cast hab
    simp only
    have := mul_lt_mul_of_pos_right this hpos
    omega
  · rw [hsimp, List.map_map]
    apply List.map_congr_left
    intro a _
    rfl
  · intro i hi
    rw [ordinalName, if_neg (by omega)]

/-- C4 witness: start 0, end 6, interval 3 gives three slots with keys
`"00"`, `"01"`, `"02"` and timestamps 0, 3, 6. -/
theorem prePopulate_builds_slots_witness :
    (prePopulateSlots ⟨0, 6, 3, 0⟩).length = 3
    ∧ (prePopulateSlots ⟨0, 6, 3, 0⟩).map Prod.snd = ["00", "01", "02"] := by
  have h := prePopulate_builds_slots 0 6 3 (by decide) (by decide) (by decide)
  refine ⟨h.1, ?_⟩
  rw [h.2.2.2.1]
  decide

/-! ## Lemmas on the fetch/cache/dedup subsystem -/

/-- The invariant maintained by the fetch subsystem: the in-flight array
holds no duplicates, every open fetch's identifier is in the in-flight
array, and no two open fetches share an identifier. -/
def FetchInv (s : FetchState) : Prop :=
  s.currentRetrievals.Nodup
  ∧ (∀ p ∈ s.openFetches, p.1 ∈ s.currentRetrievals)
  ∧ (s.openFetches.map Prod.fst).Nodup

lemma fetchInv_init : FetchInv initFetchState := by
  refine ⟨List.nodup_nil, ?_, List.nodup_nil⟩
  intro p hp
  simp [initFetchState] at hp

/-- `onload`'s effect on the in-flight array does not depend on the
decode outcome. -/
lemma onload_currentRetrievals (s : FetchState) (id : String) (suppress : Bool)
    (texture : Option Nat) :
    (onload s id suppress texture).currentRetrievals
      = s.currentRetrievals.erase id := by
  cases texture <;> rfl

/-- `onload`'s effect on the open-fetch set does not depend on the
decode outcome. -/
lemma onload_openFetches (s : FetchState) (id : String) (suppress : Bool)
    (texture : Option Nat) :
    (onload s id suppress texture).openFetches
      = s.openFetches.erase (id, suppress) := by
  cases texture <;> rfl

/-- Resolving an open fetch (by `onload` or `onerror`) preserves the
invariant: the identifier is erased from both trackers. -/
lemma fetchInv_resolve (retr : List String) (open_ : List (String × Bool))
    (id : String) (suppress : Bool)
    (h1 : retr.Nodup) (h2 : ∀ p ∈ open_, p.1 ∈ retr)
    (h3 : (open_.map Prod.fst).Nodup) (hmem : (id, suppress) ∈ open_) :
    (retr.erase id).Nodup
    ∧ (∀ p ∈ open_.erase (id, suppress), p.1 ∈ retr.erase id)
    ∧ ((open_.erase (id, suppress)).map Prod.fst).Nodup := by
  have hopen_nodup : open_.Nodup := List.Nodup.of_map _ h3
  refine ⟨h1.erase id, ?_, ?_⟩
  · intro p hp
    have hpold : p ∈ open_ := List.mem_of_mem_erase hp
    have hpne : p ≠ (id, suppress) := ((hopen_nodup.mem_erase_iff).mp hp).1
    have hfst : p.1 ≠ id := by
      intro hfeq
      exact hpne (List.inj_on_of_nodup_map h3 hpold hmem hfeq)
    exact (List.mem_erase_of_ne hfst).mpr (h2 p hpold)
  · exact List.Nodup.sublist ((List.erase_sublist _ _).map Prod.fst) h3

/-- Every event-loop step preserves the invariant. -/
lemma fetchInv_step (coolDown : Int) (s : FetchState) (e : FetchEvent)
    (h : FetchInv s) : FetchInv (fetchStep coolDown s e) := by
  obtain ⟨h1, h2, h3⟩ := h
  cases e with
  | call id url suppress now =>
    show FetchInv (retrieveImage s id url now coolDown suppress)
    rw [retrieveImage.eq_def]
    by_cases hc : id ∈ s.currentRetrievals
    · rw [if_pos hc]; exact ⟨h1, h2, h3⟩
    · rw [if_neg hc]
      by_cases ha : isResourceAbsent s.absent id now coolDown
      · rw [if_pos ha]; exact ⟨h1, h2, h3⟩
      · rw [if_neg ha]
        cases url with
        | none => exact ⟨h1, h2, h3⟩
        | some u =>
          have hid_not_fst : id ∉ s.openFetches.map Prod.fst := by
            intro hmem
            obtain ⟨p, hp, hpe⟩ := List.mem_map.mp hmem
            exact hc (hpe ▸ h2 p hp)
          refine ⟨?_, ?_, ?_⟩
          · exact List.nodup_append.mpr ⟨h1, List.nodup_singleton id,
              fun a ha' hd => hc (by rwa [List.mem_singleton.mp hd] at ha')⟩
          · intro p hp
            rcases List.mem_append.mp hp with hp' | hp'
            · exact List.mem_append_left _ (h2 p hp')
            · rw [List.mem_singleton.mp hp']
              exact List.mem_append_right _ (List.mem_singleton_self id)
          · rw [List.map_append]
            exact List.nodup_append.mpr ⟨h3, List.nodup_singleton id,
              fun a ha' hd => hid_not_fst (by rwa [List.mem_singleton.mp hd] at ha')⟩
  | load id suppress texture =>
    show FetchInv (if (id, suppress) ∈ s.openFetches then onload s id suppress texture else s)
    by_cases hmem : (id, suppress) ∈ s.openFetches
    · rw [if_pos hmem]
      have := fetchInv_resolve s.currentRetrievals s.openFetches id suppress h1 h2 h3 hmem
      exact ⟨by rw [onload_currentRetrievals]; exact this.1,
        by rw [onload_openFetches, onload_currentRetrievals]; exact this.2.1,
        by rw [onload_openFetches]; exact this.2.2⟩
    · rw [if_neg hmem]; exact ⟨h1, h2, h3⟩
  | fail id suppress now =>
    show FetchInv (if (id, suppress) ∈ s.openFetches then onerror s id suppress now else s)
    by_cases hmem : (id, suppress) ∈ s.openFetches
    · rw [if_pos hmem]
      exact fetchInv_resolve s.currentRetrievals s.openFetches id suppress h1 h2 h3 hmem
    · rw [if_neg hmem]; exact ⟨h1, h2, h3⟩

/-- Running any event sequence preserves the invariant. -/
lemma fetchInv_run (coolDown : Int) (es : List FetchEvent) (s : FetchState)
    (h : FetchInv s) : FetchInv (runEvents coolDown es s) := by
  induction es generalizing s with
  | nil => exact h
  | cons e es ih => exact ih _ (fetchInv_step coolDown s e h)

/-- C1: in every state reachable by any event sequence from the initial
state, at most one fetch per identifier is outstanding; and a
`retrieveImage` call for an identifier already in the in-flight array is
a complete no-op (in particular it issues no new fetch). -/
theorem retrieveImage_at_most_one_fetch (coolDown : Int)
    (es : List FetchEvent) (id : String) :
    ((runEvents coolDown es initFetchState).openFetches.map Prod.fst).count id ≤ 1
    ∧ (∀ (url : Option String) (suppress : Bool) (now : Int),
        id ∈ (runEvents coolDown es initFetchState).currentRetrievals →
        retrieveImage (runEvents coolDown es initFetchState) id url now coolDown suppress
          = runEvents coolDown es initFetchState) := by
  have hinv := fetchInv_run coolDown es initFetchState fetchInv_init
  constructor
  · exact List.nodup_iff_count_le_one.mp hinv.2.2 id
  · intro url suppress now hmem
    rw [retrieveImage.eq_def, if_pos hmem]

/-- C1 witness: after one successful call for `"a"`, the identifier is
in flight; a second call for it changes nothing, and at most one fetch
for `"a"` is outstanding. -/
theorem retrieveImage_at_most_one_fetch_witness :
    ((runEvents 10 [FetchEvent.call "a" (some "u") false 0]
        initFetchState).openFetches.map Prod.fst).count "a" ≤ 1
    ∧ retrieveImage
        (runEvents 10 [FetchEvent.call "a" (some "u") false 0] initFetchState)
        "a" (some "u") 5 10 true
      = runEvents 10 [FetchEvent.call "a" (some "u") false 0] initFetchState := by
  have h := retrieveImage_at_most_one_fetch 10
    [FetchEvent.call "a" (some "u") false 0] "a"
  exact ⟨h.1, h.2 (some "u") true 5 (by decide)⟩

/-- Clearing an absent-mark really removes it from the lookup. -/
lemma alistLookup_unmark (l : List (String × Int)) (id : String) :
    alistLookup id (unmarkResourceAbsent l id) = none := by
  induction l with
  | nil => rfl
  | cons a r ih =>
    rw [unmarkResourceAbsent, List.filter_cons]
    by_cases h : a.1 = id
    · rw [if_neg (by simp [h])]
      exact ih
    · rw [if_pos (by simp [h])]
      rw [alistLookup.eq_def]
      obtain ⟨a1, a2⟩ := a
      simp only
      rw [if_neg h]
      exact ih

/-- With no duplicates, erasing an identifier removes it entirely. -/
lemma not_mem_erase_self {l : List String} (id : String) (h : l.Nodup) :
    id ∉ l.erase id := by
  intro hmem
  exact ((h.mem_erase_iff).mp hmem).1 rfl

/-- C6: the `onerror` failure handler removes the identifier from the
in-flight array, marks it absent at the current time, and emits no
redraw notification; while the absent cool-down is unexpired, a
subsequent `retrieveImage` for the identifier is a complete no-op (no
fetch issued), and once the cool-down has expired a `retrieveImage` with
a non-null url issues exactly one new fetch. -/
theorem onerror_failure_and_cooldown (s : FetchState) (id : String)
    (suppress : Bool) (now coolDown : Int)
    (hnodup : s.currentRetrievals.Nodup) :
    id ∉ (onerror s id suppress now).currentRetrievals
    ∧ alistLookup id (onerror s id suppress now).absent = some now
    ∧ (onerror s id suppress now).notifications = s.notifications
    ∧ (∀ (t : Int) (url : Option String) (suppress2 : Bool), t < now + coolDown →
        retrieveImage (onerror s id suppress now) id url t coolDown suppress2
          = onerror s id suppress now)
    ∧ (∀ (t : Int) (u : String) (suppress2 : Bool), now + coolDown ≤ t →
        (retrieveImage (onerror s id suppress now) id (some u) t coolDown suppress2).issued
          = (onerror s id suppress now).issued ++ [id]) := by
  have hnm : id ∉ (onerror s id suppress now).currentRetrievals :=
    not_mem_erase_self id hnodup
  have habs : alistLookup id (onerror s id suppress now).absent = some now := by
    show alistLookup id (markResourceAbsent s.absent id now) = some now
    rw [markResourceAbsent, alistLookup, if_pos rfl]
  refine ⟨hnm, habs, rfl, ?_, ?_⟩
  · intro t url suppress2 ht
    rw [retrieveImage.eq_def, if_neg hnm, if_pos ?_]
    show isResourceAbsent (onerror s id suppress now).absent id t coolDown = true
    rw [isResourceAbsent, habs]
    simpa using ht
  · intro t u suppress2 ht
    rw [retrieveImage.eq_def, if_neg hnm, if_neg ?_]
    show ¬ isResourceAbsent (onerror s id suppress now).absent id t coolDown = true
    rw [isResourceAbsent, habs]
    simpa using not_lt.mpr ht

/-- C6 witness: a state with one open fetch for `"x"`; its failure at
time 0 with cool-down 10 suppresses a retry at time 5 and allows one at
time 10. -/
theorem onerror_failure_and_cooldown_witness :
    "x" ∉ (onerror ⟨["x"], [], [], [("x", false)], ["x"], 0, false⟩
        "x" false 0).currentRetrievals
    ∧ alistLookup "x" (onerror ⟨["x"], [], [], [("x", false)], ["x"], 0, false⟩
        "x" false 0).absent = some 0
    ∧ (onerror ⟨["x"], [], [], [("x", false)], ["x"], 0, false⟩
        "x" false 0).notifications
        = (⟨["x"], [], [], [("x", false)], ["x"], 0, false⟩ : FetchState).notifications
    ∧ retrieveImage (onerror ⟨["x"], [], [], [("x", false)], ["x"], 0, false⟩
          "x" false 0) "x" (some "u") 5 10 false
        = onerror ⟨["x"], [], [], [("x", false)], ["x"], 0, false⟩ "x" false 0
    ∧ (retrieveImage (onerror ⟨["x"], [], [], [("x", false)], ["x"], 0, false⟩
          "x" false 0) "x" (some "u") 10 10 false).issued
        = (onerror ⟨["x"], [], [], [("x", false)], ["x"], 0, false⟩
            "x" false 0).issued ++ ["x"] := by
  have h := onerror_failure_and_cooldown
    ⟨["x"], [], [], [("x", false)], ["x"], 0, false⟩ "x" false 0 10 (by decide)
  exact ⟨h.1, h.2.1, h.2.2.1, h.2.2.2.1 5 (some "u") false (by decide),
    h.2.2.2.2 10 "u" false (by decide)⟩

/-- C7: the `onload` success handler with a decoded texture inserts the
resource into the cache under the identifier with its computed size,
removes the identifier from the in-flight array, clears any prior
absent-mark, and emits exactly one redraw notification — except in
suppress mode, where it emits none; and `BMNGOneImageLayer.prePopulate`
always requests suppress mode, so a fetch it issues is recorded with the
suppress flag set. -/
theorem onload_success_effects (s : FetchState) (id : String)
    (suppress : Bool) (size : Nat)
    (hnodup : s.currentRetrievals.Nodup) :
    alistLookup id (onload s id suppress (some size)).cache = some size
    ∧ id ∉ (onload s id suppress (some size)).currentRetrievals
    ∧ alistLookup id (onload s id suppress (some size)).absent = none
    ∧ (onload s id suppress (some size)).notifications
        = (if suppress then s.notifications else s.notifications + 1)
    ∧ (∀ (t : FetchState) (id2 u : String) (now coolDown : Int),
        alistLookup id2 t.cache = none →
        id2 ∉ t.currentRetrievals →
        isResourceAbsent t.absent id2 now coolDown = false →
        (bmngPrePopulate t id2 (some u) now coolDown).openFetches
          = t.openFetches ++ [(id2, true)]) := by
  refine ⟨?_, ?_, ?_, rfl, ?_⟩
  · show alistLookup id ((id, size) :: _) = some size
    rw [alistLookup, if_pos rfl]
  · show id ∉ s.currentRetrievals.erase id
    exact not_mem_erase_self id hnodup
  · exact alistLookup_unmark _ id
  · intro t id2 u now coolDown hcache hretr habs
    rw [bmngPrePopulate, if_neg (by simp [hcache]), retrieveImage.eq_def,
      if_neg hretr, if_neg (by simp [habs])]

/-- C7 witness: a state with one open suppressed fetch for `"x"` that
was previously marked absent; its successful load caches the texture,
clears the mark, and (suppress mode) emits no notification; and
`bmngPrePopulate` on an empty state opens a suppressed fetch. -/
theorem onload_success_effects_witness :
    alistLookup "x" (onload ⟨["x"], [("x", 3)], [], [("x", true)], ["x"], 0, false⟩
        "x" true (some 7)).cache = some 7
    ∧ "x" ∉ (onload ⟨["x"], [("x", 3)], [], [("x", true)], ["x"], 0, false⟩
        "x" true (some 7)).currentRetrievals
    ∧ alistLookup "x" (onload ⟨["x"], [("x", 3)], [], [("x", true)], ["x"], 0, false⟩
        "x" true (some 7)).absent = none
    ∧ (onload ⟨["x"], [("x", 3)], [], [("x", true)], ["x"], 0, false⟩
        "x" true (some 7)).notifications
        = (if true then
            (⟨["x"], [("x", 3)], [], [("x", true)], ["x"], 0, false⟩ : FetchState).notifications
          else
            (⟨["x"], [("x", 3)], [], [("x", true)], ["x"], 0, false⟩ : FetchState).notifications + 1)
    ∧ (bmngPrePopulate initFetchState "y" (some "u") 0 10).openFetches
        = initFetchState.openFetches ++ [("y", true)] := by
  have h := onload_success_effects
    ⟨["x"], [("x", 3)], [], [("x", true)], ["x"], 0, false⟩ "x" true 7 (by decide)
  exact ⟨h.1, h.2.1, h.2.2.1, h.2.2.2.1,
    h.2.2.2.2 initFetchState "y" "u" 0 10 (by decide) (by decide) (by decide)⟩

/-- C9: the `onload` handler with a failed decode (no texture) removes
the identifier from the in-flight array but changes neither the cache
nor the absent tracker and emits no notification; consequently the very
next `retrieveImage` for the identifier — at any time at which the
absent guard is off, in particular always when the identifier was never
marked absent — issues a new fetch immediately: decode failures get no
cool-down suppression. -/
theorem onload_decode_failure_no_cooldown (s : FetchState) (id : String)
    (suppress : Bool) (hnodup : s.currentRetrievals.Nodup) :
    (onload s id suppress none).cache = s.cache
    ∧ (onload s id suppress none).absent = s.absent
    ∧ (onload s id suppress none).notifications = s.notifications
    ∧ id ∉ (onload s id suppress none).currentRetrievals
    ∧ (∀ (u : String) (now coolDown : Int) (suppress2 : Bool),
        isResourceAbsent s.absent id now coolDown = false →
        (retrieveImage (onload s id suppress none) id (some u) now coolDown suppress2).issued
          = (onload s id suppress none).issued ++ [id]) := by
  have h0 : id ∉ (onload s id suppress none).currentRetrievals :=
    not_mem_erase_self id hnodup
  refine ⟨rfl, rfl, rfl, h0, ?_⟩
  intro u now coolDown suppress2 habs
  rw [retrieveImage.eq_def, if_neg h0, if_neg ?_]
  show ¬ isResourceAbsent (onload s id suppress none).absent id now coolDown = true
  show ¬ isResourceAbsent s.absent id now coolDown = true
  simp [habs]

/-- C9 witness: a state with one open fetch for `"x"` and no absent
mark; decode failure leaves cache and absent tracker unchanged and the
immediate retry issues a fetch. -/
theorem onload_decode_failure_no_cooldown_witness :
    (onload ⟨["x"], [], [("z", 5)], [("x", false)], ["x"], 0, false⟩
        "x" false none).cache = [("z", 5)]
    ∧ (onload ⟨["x"], [], [("z", 5)], [("x", false)], ["x"], 0, false⟩
        "x" false none).absent = []
    ∧ (onload ⟨["x"], [], [("z", 5)], [("x", false)], ["x"], 0, false⟩
        "x" false none).notifications = 0
    ∧ "x" ∉ (onload ⟨["x"], [], [("z", 5)], [("x", false)], ["x"], 0, false⟩
        "x" false none).currentRetrievals
    ∧ (retrieveImage (onload ⟨["x"], [], [("z", 5)], [("x", false)], ["x"], 0, false⟩
          "x" false none) "x" (some "u") 0 10 false).issued
        = (onload ⟨["x"], [], [("z", 5)], [("x", false)], ["x"], 0, false⟩
            "x" false none).issued ++ ["x"] := by
  have h := onload_decode_failure_no_cooldown
    ⟨["x"], [], [("z", 5)], [("x", false)], ["x"], 0, false⟩ "x" false (by decide)
  exact ⟨h.1, h.2.1, h.2.2.1, h.2.2.2.1, h.2.2.2.2 "u" 0 10 false (by decide)⟩

/-- C10: the `onerror` failure handler leaves the resource cache
untouched — the cache field is unchanged, so containment (`isReady`) of
every identifier is exactly what it was before the failure. -/
theorem onerror_cache_unchanged (s : FetchState) (id : String)
    (suppress : Bool) (now : Int) :
    (onerror s id suppress now).cache = s.cache
    ∧ ∀ id2 : String,
        (alistLookup id2 (onerror s id suppress now).cache).isSome
          = (alistLookup id2 s.cache).isSome :=
  ⟨rfl, fun _ => rfl⟩

/-! ## Rendering and readiness of the concrete layers -/

/-- C3: `TimeSeriesLayer.doRender` performs no nearest-slot resolution.
In the state right after `prePopulate` built the 49-slot index, a query
at 2016-07-12T01:00Z (epoch 1468285200000, one hour past slot `"00"` and
not an exact slot time) makes `this.layerNames[this.time]` yield
`undefined` and the following `layer.opacity` write throw (`none`),
instead of rendering the nearest slot; a query at the exact slot time
2016-07-12T00:00Z does render slot `"00"`'s sub-layer.  And
`WeatherLayer`'s variant, which does call the nearest-slot lookup from
`doRender`, reads the `name` field its own `prePopulate` never assigns
(it assigns `month`), so the resolved sub-layer key is `undefined`
rather than the slot's key. -/
theorem doRender_exact_lookup_bug :
    TSLState.doRender tslPrePopulated 1468285200000 = none
    ∧ TSLState.doRender tslPrePopulated 1468281600000
        = some "standalonedata/WORLD-CED/test/00.png"
    ∧ nearestLayerName (wGenEntries canonicalSequence 0 49) 1468285200000
        = some none := by
  refine ⟨by decide, by decide, by decide⟩

/-- C8: `WeatherLayer.isPrePopulated` returns `true` unconditionally —
in particular in the state right after `prePopulate` built the 49-slot
index while the gpu resource cache is still empty, where not a single
slot's image is in memory (`slotReady` is false for every slot of the
index, which is non-empty). -/
theorem isPrePopulated_returns_true_bug :
    weatherIsPrePopulated (wGenEntries canonicalSequence 0 49) [] = true
    ∧ (prePopulateSlots canonicalSequence).all (slotReady []) = false
    ∧ prePopulateSlots canonicalSequence ≠ [] := by
  refine ⟨rfl, by decide, by decide⟩

end WorldwindTimeseries
